import Mathlib

/-!
# Verification of compIAM core pipelines

Shallow embedding of the two core pipelines of the compIAM repository:

* the Dunya metadata aggregation (`compiam/dunya/__init__.py`,
  `Corpora._get_metadata`, `Corpora.save_annotation`,
  `Corpora.download_mp3`, `Corpora.download_concert`), and
* the CAE windowed feature extraction
  (`compiam/melody/pattern/sancara_search/__init__.py`, `CAEWrapper`).

Remote queries, the torch model, the CQT transform and the per-window
`standardize` function are external collaborators; they are modelled as
function parameters.  JSON records are modelled with their identifier
field explicit and the remaining attribute bag abstracted.
-/

set_option autoImplicit false

namespace CompIAM

/-- A JSON-like entity record as it appears in Dunya metadata
(artist / concert / work / raga / tala / instrument).  `ident` is its
identifier field (`"mbid"` for artist, concert, work and instrument
records, `"uuid"` for raga and tala records); `attrs` abstracts the
remaining bag of descriptive attributes, which the aggregation never
inspects. -/
structure DEntity where
  ident : String
  attrs : Nat
deriving DecidableEq, Repr

/-- Python dict assignment `d[k] = v` on an insertion-ordered dict
(represented as an association list): if `k` is already present its
value is overwritten in place, otherwise the pair is appended at the
end. -/
def dictInsert {α : Type} (k : String) (v : α) : List (String × α) → List (String × α)
  | [] => [(k, v)]
  | (k', v') :: rest => if k' = k then (k', v) :: rest else (k', v') :: dictInsert k v rest

/-- Python dict comprehension `{key(a): a for a in xs}`, threading the
dict accumulator `d` through the iteration. -/
def buildDict {α : Type} (key : α → String) (d : List (String × α)) : List α → List (String × α)
  | [] => d
  | x :: xs => buildDict key (dictInsert (key x) x d) xs

/-- `list({key(a): a for a in xs}.values())` — the deduplication step of
`Corpora._get_metadata` (lines 143–148 of `compiam/dunya/__init__.py`). -/
def dedupBy {α : Type} (key : α → String) (xs : List α) : List α :=
  (buildDict key [] xs).map Prod.snd

/-- The last element of `xs` whose key is `k` — the "last-encountered
occurrence" of the identifier `k`. -/
def lastWith {α : Type} (key : α → String) (k : String) (xs : List α) : Option α :=
  (xs.filter (fun a => key a == k)).getLast?

/-! ## Basic dict lemmas -/

/-- First-match association-list lookup, `d[k]` on the dict
representation. -/
def lookupD {α : Type} (k : String) : List (String × α) → Option α
  | [] => none
  | (k', v) :: rest => if k' = k then some v else lookupD k rest

theorem dictInsert_keys {α : Type} (k : String) (v : α) (d : List (String × α)) :
    (dictInsert k v d).map Prod.fst =
      if k ∈ d.map Prod.fst then d.map Prod.fst else d.map Prod.fst ++ [k] := by
  induction d with
  | nil => simp [dictInsert]
  | cons p rest ih =>
    obtain ⟨k', v'⟩ := p
    by_cases h : k' = k
    · subst h
      simp [dictInsert]
    · have hne : ¬ (k = k') := fun hh => h hh.symm
      simp only [dictInsert, if_neg h, List.map_cons, ih, List.mem_cons]
      by_cases hm : k ∈ List.map Prod.fst rest
      · simp [hm]
      · simp [hm, hne]

theorem dictInsert_keys_nodup {α : Type} (k : String) (v : α) (d : List (String × α))
    (h : (d.map Prod.fst).Nodup) : ((dictInsert k v d).map Prod.fst).Nodup := by
  rw [dictInsert_keys]
  by_cases hm : k ∈ d.map Prod.fst
  · simpa [hm] using h
  · simpa [hm, List.nodup_append] using h

theorem buildDict_keys_nodup {α : Type} (key : α → String) (xs : List α)
    (d : List (String × α)) (h : (d.map Prod.fst).Nodup) :
    ((buildDict key d xs).map Prod.fst).Nodup := by
  induction xs generalizing d with
  | nil => simpa [buildDict] using h
  | cons x xs ih => exact ih _ (dictInsert_keys_nodup _ _ _ h)

theorem mem_dictInsert {α : Type} (k : String) (v : α) (d : List (String × α))
    (p : String × α) (hp : p ∈ dictInsert k v d) : p ∈ d ∨ p = (k, v) := by
  induction d with
  | nil => simpa [dictInsert] using hp
  | cons q rest ih =>
    obtain ⟨k', v'⟩ := q
    by_cases h : k' = k
    · rw [show dictInsert k v ((k', v') :: rest) = (k', v) :: rest from by
        simp [dictInsert, h]] at hp
      rcases List.mem_cons.mp hp with h1 | h2
      · exact Or.inr (by rw [h1, h])
      · exact Or.inl (List.mem_cons_of_mem _ h2)
    · rw [show dictInsert k v ((k', v') :: rest) = (k', v') :: dictInsert k v rest from by
        simp [dictInsert, h]] at hp
      rcases List.mem_cons.mp hp with h1 | h2
      · exact Or.inl (List.mem_cons.mpr (Or.inl h1))
      · rcases ih h2 with h3 | h4
        · exact Or.inl (List.mem_cons_of_mem _ h3)
        · exact Or.inr h4

theorem buildDict_mem_key {α : Type} (key : α → String) (xs : List α)
    (d : List (String × α)) (hd : ∀ p ∈ d, p.1 = key p.2) :
    ∀ p ∈ buildDict key d xs, p.1 = key p.2 := by
  induction xs generalizing d with
  | nil => simpa [buildDict] using hd
  | cons x xs ih =>
    intro p hp
    refine ih (dictInsert (key x) x d) ?_ p hp
    intro q hq
    rcases mem_dictInsert _ _ _ _ hq with h1 | h2
    · exact hd q h1
    · simp [h2]

theorem lookupD_dictInsert {α : Type} (k k' : String) (v : α) (d : List (String × α)) :
    lookupD k' (dictInsert k v d) =
      if k = k' then some v else lookupD k' d := by
  induction d with
  | nil => simp [dictInsert, lookupD]
  | cons p rest ih =>
    obtain ⟨k1, v1⟩ := p
    by_cases h : k1 = k
    · subst h
      by_cases h2 : k1 = k'
      · subst h2
        simp [dictInsert, lookupD]
      · simp [dictInsert, lookupD, h2, fun hh : k1 = k' => h2 hh]
    · rw [show dictInsert k v ((k1, v1) :: rest) = (k1, v1) :: dictInsert k v rest from by
        simp [dictInsert, h]]
      by_cases h2 : k1 = k'
      · subst h2
        have hne : ¬ (k = k1) := fun hh => h hh.symm
        simp [lookupD, hne]
      · simp [lookupD, h2, ih]

theorem lastWith_nil {α : Type} (key : α → String) (k : String) :
    lastWith key k [] = none := rfl

theorem lastWith_cons {α : Type} (key : α → String) (k : String) (x : α) (xs : List α) :
    lastWith key k (x :: xs) =
      if key x = k then some ((lastWith key k xs).getD x) else lastWith key k xs := by
  by_cases h : key x = k
  · simp only [lastWith, List.filter_cons, h, beq_self_eq_true, if_pos, ite_true]
    cases hxs : List.filter (fun a => key a == k) xs with
    | nil => simp [hxs, lastWith]
    | cons y ys =>
      cases hg : (y :: ys).getLast? with
      | none => exact absurd (List.getLast?_eq_none_iff.mp hg) (by simp)
      | some a => simp [lastWith, hxs, List.getLast?_cons_cons, hg]
  · simp [lastWith, List.filter_cons, h]

/-- Looking a key up in the dict built by the comprehension returns the
last occurrence with that key, falling back to the accumulator. -/
theorem lookupD_buildDict {α : Type} (key : α → String) (xs : List α)
    (d : List (String × α)) (k : String) :
    lookupD k (buildDict key d xs) =
      match lastWith key k xs with
      | some a => some a
      | none => lookupD k d := by
  induction xs generalizing d with
  | nil => simp [buildDict, lastWith_nil]
  | cons x xs ih =>
    simp only [buildDict, ih, lastWith_cons]
    by_cases h : key x = k
    · cases hxs : lastWith key k xs with
      | none => simp [hxs, h, lookupD_dictInsert]
      | some a => simp [hxs, h]
    · cases hxs : lastWith key k xs with
      | none => simp [hxs, h, lookupD_dictInsert, fun hh : k = key x => h hh.symm]
      | some a => simp [hxs, h]

theorem lookupD_of_mem_nodup_keys {α : Type} (d : List (String × α)) (k : String) (v : α)
    (hnd : (d.map Prod.fst).Nodup) (hm : (k, v) ∈ d) : lookupD k d = some v := by
  induction d with
  | nil => simp at hm
  | cons p rest ih =>
    obtain ⟨k1, v1⟩ := p
    simp only [List.map_cons, List.nodup_cons] at hnd
    rcases List.mem_cons.mp hm with h1 | h2
    · rw [Prod.mk.injEq] at h1
      obtain ⟨rfl, rfl⟩ := h1
      simp [lookupD]
    · have hk : ¬ k1 = k := by
        intro hh
        subst hh
        exact hnd.1 (by simp only [List.mem_map]; exact ⟨(k1, v), h2, rfl⟩)
      simp [lookupD, hk, ih hnd.2 h2]

theorem dictInsert_not_mem {α : Type} (k : String) (v : α) (d : List (String × α))
    (h : k ∉ d.map Prod.fst) : dictInsert k v d = d ++ [(k, v)] := by
  induction d with
  | nil => simp [dictInsert]
  | cons p rest ih =>
    obtain ⟨k1, v1⟩ := p
    simp only [List.map_cons, List.mem_cons] at h
    push_neg at h
    have hne : ¬ (k1 = k) := fun hh => h.1 hh.symm
    simp [dictInsert, hne, ih h.2]

theorem buildDict_of_nodup {α : Type} (key : α → String) (xs : List α)
    (d : List (String × α)) (hdisj : ∀ a ∈ xs, key a ∉ d.map Prod.fst)
    (hx : (xs.map key).Nodup) :
    buildDict key d xs = d ++ xs.map (fun a => (key a, a)) := by
  induction xs generalizing d with
  | nil => simp [buildDict]
  | cons x xs ih =>
    simp only [List.map_cons, List.nodup_cons] at hx
    rw [buildDict, dictInsert_not_mem _ _ _ (hdisj x (List.mem_cons_self x xs)),
      ih (d ++ [(key x, x)]) ?_ hx.2]
    · simp
    · intro a ha
      simp only [List.map_append, List.mem_append, List.map_cons, List.map_nil,
        List.mem_singleton]
      push_neg
      refine ⟨hdisj a (List.mem_cons_of_mem _ ha), ?_⟩
      intro hh
      exact hx.1 (hh ▸ List.mem_map_of_mem key ha)

theorem map_fst_of_key_inv {α : Type} (key : α → String) (l : List (String × α))
    (h : ∀ p ∈ l, p.1 = key p.2) : l.map (fun p => key p.2) = l.map Prod.fst := by
  induction l with
  | nil => rfl
  | cons p rest ih =>
    simp only [List.map_cons]
    rw [(h p (List.mem_cons_self p rest)).symm,
      ih (fun q hq => h q (List.mem_cons_of_mem _ hq))]

theorem dedupBy_map_key {α : Type} (key : α → String) (xs : List α) :
    (dedupBy key xs).map key = (buildDict key [] xs).map Prod.fst := by
  rw [dedupBy, List.map_map]
  exact map_fst_of_key_inv key _ (buildDict_mem_key key xs [] (by simp))

/-- The identifiers of a deduplicated list are pairwise distinct. -/
theorem dedupBy_ids_nodup {α : Type} (key : α → String) (xs : List α) :
    ((dedupBy key xs).map key).Nodup := by
  rw [dedupBy_map_key]
  exact buildDict_keys_nodup key xs [] (by simp)

/-- Deduplicating a list whose keys are already distinct returns it unchanged. -/
theorem dedupBy_of_nodup {α : Type} (key : α → String) (xs : List α)
    (h : (xs.map key).Nodup) : dedupBy key xs = xs := by
  rw [dedupBy, buildDict_of_nodup key xs [] (by simp) h]
  rw [List.nil_append, List.map_map]
  have hcomp : (Prod.snd ∘ fun a : α => (key a, a)) = fun a => a := rfl
  rw [hcomp]
  simp

/-- Every survivor of deduplication is the last-encountered occurrence of
its own identifier in the input list. -/
theorem dedupBy_mem_lastWith {α : Type} (key : α → String) (xs : List α) (e : α)
    (he : e ∈ dedupBy key xs) : lastWith key (key e) xs = some e := by
  rw [dedupBy] at he
  obtain ⟨p, hp, hpe⟩ := List.mem_map.mp he
  have hk := buildDict_mem_key key xs [] (by simp) p hp
  have hnd := buildDict_keys_nodup key xs [] (List.nodup_nil)
  have hl := lookupD_of_mem_nodup_keys (buildDict key [] xs) p.1 p.2 hnd (by simpa using hp)
  rw [lookupD_buildDict, hk, hpe] at hl
  cases hx : lastWith key (key e) xs with
  | none => rw [hx] at hl; simp [lookupD] at hl
  | some a =>
    rw [hx] at hl
    simp only [Option.some.injEq] at hl
    rw [hl]

/-- **C5**: the identifier-keyed deduplication (build an identifier-to-record
map over a list, then take the map's values) is idempotent — applying it to a
list it has already produced yields the same list — and its output never
contains two entries with the same identifier field. -/
theorem claim_C5_dedup_idempotent {α : Type} (key : α → String) (xs : List α) :
    dedupBy key (dedupBy key xs) = dedupBy key xs ∧
      ((dedupBy key xs).map key).Nodup :=
  ⟨dedupBy_of_nodup key _ (dedupBy_ids_nodup key xs), dedupBy_ids_nodup key xs⟩

/-! ## The aggregation pipeline (`Corpora._get_metadata`) -/

/-- One element of a recording detail's `"artists"` list.  A field is
`none` when the corresponding key (`"lead"`, `"artist"`, `"instrument"`)
is missing from the JSON object, so that subscripting it raises. -/
structure ArtistItem where
  lead : Option Bool
  artist : Option DEntity
  instrument : Option DEntity
deriving DecidableEq, Repr

/-- The JSON object returned by `Corpora.get_recording`; a field is
`none` when the key is missing, which makes the subscript access fail. -/
structure RecordingDetail where
  artists : Option (List ArtistItem)
  concert : Option (List DEntity)
  work : Option (List DEntity)
  raaga : Option (List DEntity)
  taala : Option (List DEntity)
deriving DecidableEq, Repr

/-- The remote `get_recording` collaborator: maps a recording mbid to
its detail record, or fails (network / HTTP error).  It is a pure
function: repeated queries for the same mbid return the same answer. -/
def DunyaEnv : Type := String → Except Unit RecordingDetail

/-- The seven accumulator lists of `_get_metadata` (lines 108–114 of
`compiam/dunya/__init__.py`). -/
structure Acc where
  recording_list : List String
  artist_list : List DEntity
  concert_list : List DEntity
  work_list : List DEntity
  raga_list : List DEntity
  tala_list : List DEntity
  instrument_list : List DEntity
deriving DecidableEq, Repr

def emptyAcc : Acc := ⟨[], [], [], [], [], [], []⟩

/-- The artist loop of `_get_metadata` (lines 121–124): for each artist
item, if its `"lead"` flag is truthy append `artist["artist"]` to the
artist accumulator, and always append `artist["instrument"]` to the
instrument accumulator.  A missing key raises mid-loop: the appends
already made are kept and the `Bool` component is `false`. -/
def processArtists : List ArtistItem → List DEntity → List DEntity →
    List DEntity × List DEntity × Bool
  | [], al, il => (al, il, true)
  | item :: rest, al, il =>
    match item.lead with
    | none => (al, il, false)
    | some true =>
      match item.artist with
      | none => (al, il, false)
      | some a =>
        match item.instrument with
        | none => (al ++ [a], il, false)
        | some ins => processArtists rest (al ++ [a]) (il ++ [ins])
    | some false =>
      match item.instrument with
      | none => (al, il, false)
      | some ins => processArtists rest al (il ++ [ins])

/-- The body of the `for rec in ...` loop of `_get_metadata` (lines
119–139), processing one recording inside `try:/except: continue`.
Returns the updated accumulators, the number of `get_recording` detail
queries issued for this recording (the source calls `get_recording`
afresh for every metadata field — lines 121, 126, 129, 132, 135), and
whether the recording was processed to completion.  Any failure keeps
the appends already made and moves on (`except: continue`). -/
def processRecording (env : DunyaEnv) (st : Acc) (rid : String) : Acc × Nat × Bool :=
  match env rid with
  | .error _ => (st, 1, false)
  | .ok d =>
    match d.artists with
    | none => (st, 1, false)
    | some items =>
      match processArtists items st.artist_list st.instrument_list with
      | (al, il, flag) =>
        let st1 := { st with artist_list := al, instrument_list := il }
        match flag with
        | false => (st1, 1, false)
        | true =>
          match env rid with
          | .error _ => (st1, 2, false)
          | .ok d2 =>
            match d2.concert with
            | none => (st1, 2, false)
            | some cs =>
              let st2 := { st1 with concert_list := st1.concert_list ++ cs }
              match env rid with
              | .error _ => (st2, 3, false)
              | .ok d3 =>
                match d3.work with
                | none => (st2, 3, false)
                | some ws =>
                  let st3 := { st2 with work_list := st2.work_list ++ ws }
                  match env rid with
                  | .error _ => (st3, 4, false)
                  | .ok d4 =>
                    match d4.raaga with
                    | none => (st3, 4, false)
                    | some rs =>
                      let st4 := { st3 with raga_list := st3.raga_list ++ rs }
                      match env rid with
                      | .error _ => (st4, 5, false)
                      | .ok d5 =>
                        match d5.taala with
                        | none => (st4, 5, false)
                        | some ts =>
                          let st5 := { st4 with tala_list := st4.tala_list ++ ts }
                          ({ st5 with recording_list := st5.recording_list ++ [rid] },
                            5, true)

/-- The full recording loop of `_get_metadata`, also accumulating the
trace of `get_recording` detail queries issued (one entry per call, in
order). -/
def aggLoop (env : DunyaEnv) (st : Acc) (log : List String) :
    List String → Acc × List String
  | [] => (st, log)
  | rid :: rest =>
    match processRecording env st rid with
    | (st', n, _) => aggLoop env st' (log ++ List.replicate n rid) rest

/-- The result dictionary of `_get_metadata` (lines 141–149). -/
structure AggResult where
  recording_list : List String
  artist_list : List DEntity
  concert_list : List DEntity
  work_list : List DEntity
  raga_list : List DEntity
  tala_list : List DEntity
  instrument_list : List DEntity
deriving DecidableEq, Repr

/-- The raw accumulators after the recording loop, before deduplication. -/
def rawAccum (env : DunyaEnv) (collection : List String) : Acc :=
  (aggLoop env emptyAcc [] collection).1

/-- The trace of detail queries issued over the whole aggregation. -/
def queryLog (env : DunyaEnv) (collection : List String) : List String :=
  (aggLoop env emptyAcc [] collection).2

/-- `Corpora._get_metadata`: process every recording of the collection
best-effort, then deduplicate the six entity accumulators by their
identifier field (`"mbid"` for artists/concerts/works/instruments,
`"uuid"` for ragas/talas) and return them together with the list of
successfully processed recording ids. -/
def _get_metadata (env : DunyaEnv) (collection : List String) : AggResult :=
  { recording_list := (rawAccum env collection).recording_list
    artist_list := dedupBy DEntity.ident (rawAccum env collection).artist_list
    concert_list := dedupBy DEntity.ident (rawAccum env collection).concert_list
    work_list := dedupBy DEntity.ident (rawAccum env collection).work_list
    raga_list := dedupBy DEntity.ident (rawAccum env collection).raga_list
    tala_list := dedupBy DEntity.ident (rawAccum env collection).tala_list
    instrument_list := dedupBy DEntity.ident (rawAccum env collection).instrument_list }

/-- Whether one recording processes to completion; this depends only on
the remote data, not on the accumulator state. -/
def recordingOk (env : DunyaEnv) (rid : String) : Bool :=
  (processRecording env emptyAcc rid).2.2

/-- The number of detail queries issued while processing one recording. -/
def queryCount (env : DunyaEnv) (rid : String) : Nat :=
  (processRecording env emptyAcc rid).2.1

/-! ## Structural lemmas about one-recording processing -/

/-- Pointwise concatenation of two accumulator states. -/
def appendAcc (st d : Acc) : Acc :=
  ⟨st.recording_list ++ d.recording_list,
   st.artist_list ++ d.artist_list,
   st.concert_list ++ d.concert_list,
   st.work_list ++ d.work_list,
   st.raga_list ++ d.raga_list,
   st.tala_list ++ d.tala_list,
   st.instrument_list ++ d.instrument_list⟩

theorem processArtists_append (items : List ArtistItem) :
    ∀ al il, (processArtists items al il).1 = al ++ (processArtists items [] []).1
      ∧ (processArtists items al il).2.1 = il ++ (processArtists items [] []).2.1
      ∧ (processArtists items al il).2.2 = (processArtists items [] []).2.2 := by
  induction items with
  | nil =>
    intro al il
    simp [processArtists]
  | cons item rest ih =>
    intro al il
    cases hl : item.lead with
    | none => simp [processArtists, hl]
    | some b =>
      cases b with
      | true =>
        cases ha : item.artist with
        | none => simp [processArtists, hl, ha]
        | some a =>
          cases hi : item.instrument with
          | none => simp [processArtists, hl, ha, hi]
          | some ins =>
            simp only [processArtists, hl, ha, hi]
            obtain ⟨e1, e2, e3⟩ := ih (al ++ [a]) (il ++ [ins])
            obtain ⟨f1, f2, f3⟩ := ih [a] [ins]
            exact ⟨by simp [e1, f1], by simp [e2, f2], by simp [e3, f3]⟩
      | false =>
        cases hi : item.instrument with
        | none => simp [processArtists, hl, hi]
        | some ins =>
          simp only [processArtists, hl, hi]
          obtain ⟨e1, e2, e3⟩ := ih al (il ++ [ins])
          obtain ⟨f1, f2, f3⟩ := ih [] [ins]
          exact ⟨by simp [e1, f1], by simp [e2, f2], by simp [e3, f3]⟩

/-- Processing one recording only ever appends to the accumulators: the
result at an arbitrary starting state is the starting state with the
result at the empty state appended, and the query count / success flag
do not depend on the starting state. -/
theorem processRecording_delta (env : DunyaEnv) (st : Acc) (rid : String) :
    processRecording env st rid =
      (appendAcc st (processRecording env emptyAcc rid).1,
        (processRecording env emptyAcc rid).2) := by
  cases he : env rid with
  | error e =>
    simp [processRecording, he, appendAcc, emptyAcc]
  | ok d =>
    cases hart : d.artists with
    | none => simp [processRecording, he, hart, appendAcc, emptyAcc]
    | some items =>
      obtain ⟨e1, e2, e3⟩ := processArtists_append items st.artist_list st.instrument_list
      rcases hP : processArtists items st.artist_list st.instrument_list with ⟨al, il, flag⟩
      rcases hP0 : processArtists items [] [] with ⟨al0, il0, flag0⟩
      rw [hP, hP0] at e1 e2 e3
      simp only at e1 e2 e3
      cases flag0 with
      | false =>
        have hflag : flag = false := by rw [e3]
        subst hflag
        simp [processRecording, he, hart, hP, hP0, appendAcc, emptyAcc, e1, e2]
      | true =>
        have hflag : flag = true := by rw [e3]
        subst hflag
        cases hc : d.concert with
        | none =>
          simp [processRecording, he, hart, hP, hP0, hc, appendAcc, emptyAcc, e1, e2]
        | some cs =>
          cases hw : d.work with
          | none =>
            simp [processRecording, he, hart, hP, hP0, hc, hw, appendAcc, emptyAcc, e1, e2]
          | some ws =>
            cases hr : d.raaga with
            | none =>
              simp [processRecording, he, hart, hP, hP0, hc, hw, hr, appendAcc,
                emptyAcc, e1, e2]
            | some rs =>
              cases ht : d.taala with
              | none =>
                simp [processRecording, he, hart, hP, hP0, hc, hw, hr, ht, appendAcc,
                  emptyAcc, e1, e2]
              | some ts =>
                simp [processRecording, he, hart, hP, hP0, hc, hw, hr, ht, appendAcc,
                  emptyAcc, e1, e2]

/-- The query count and success flag of one recording, at any state. -/
theorem processRecording_snd (env : DunyaEnv) (st : Acc) (rid : String) :
    (processRecording env st rid).2 = (queryCount env rid, recordingOk env rid) := by
  rw [processRecording_delta, queryCount, recordingOk]

/-- At the empty starting state, a processed recording contributes its
own id to `recording_list` exactly when it succeeds. -/
theorem processRecording_recList (env : DunyaEnv) (rid : String) :
    (processRecording env emptyAcc rid).1.recording_list =
      if recordingOk env rid then [rid] else [] := by
  rw [recordingOk]
  cases he : env rid with
  | error e => simp [processRecording, he, emptyAcc]
  | ok d =>
    cases hart : d.artists with
    | none => simp [processRecording, he, hart, emptyAcc]
    | some items =>
      rcases hP : processArtists items [] [] with ⟨al, il, flag⟩
      cases flag with
      | false => simp [processRecording, he, hart, hP, emptyAcc]
      | true =>
        cases hc : d.concert with
        | none => simp [processRecording, he, hart, hP, hc, emptyAcc]
        | some cs =>
          cases hw : d.work with
          | none => simp [processRecording, he, hart, hP, hc, hw, emptyAcc]
          | some ws =>
            cases hr : d.raaga with
            | none => simp [processRecording, he, hart, hP, hc, hw, hr, emptyAcc]
            | some rs =>
              cases ht : d.taala with
              | none => simp [processRecording, he, hart, hP, hc, hw, hr, ht, emptyAcc]
              | some ts => simp [processRecording, he, hart, hP, hc, hw, hr, ht, emptyAcc]

/-- Loop characterization: the final `recording_list` is the starting
one followed by the successful recordings in input order, and the query
trace is the per-recording query blocks in input order. -/
theorem aggLoop_state (env : DunyaEnv) (col : List String) :
    ∀ st log,
      (aggLoop env st log col).1.recording_list =
          st.recording_list ++ col.filter (fun r => recordingOk env r)
        ∧ (aggLoop env st log col).2 =
          log ++ col.flatMap (fun r => List.replicate (queryCount env r) r) := by
  induction col with
  | nil =>
    intro st log
    simp [aggLoop]
  | cons rid rest ih =>
    intro st log
    rcases hP : processRecording env st rid with ⟨st', n, flag⟩
    have hdelta := processRecording_delta env st rid
    rw [hP] at hdelta
    have hst' : st' = appendAcc st (processRecording env emptyAcc rid).1 := by
      have := congrArg Prod.fst hdelta
      simpa using this
    have hn : n = queryCount env rid := by
      have := congrArg (fun p => p.2.1) hdelta
      simpa [queryCount] using this
    obtain ⟨ih1, ih2⟩ := ih st' (log ++ List.replicate n rid)
    constructor
    · rw [show aggLoop env st log (rid :: rest)
          = aggLoop env st' (log ++ List.replicate n rid) rest from by
        simp [aggLoop, hP]]
      rw [ih1, hst']
      show (appendAcc st (processRecording env emptyAcc rid).1).recording_list ++ _ = _
      rw [appendAcc, processRecording_recList]
      cases hok : recordingOk env rid with
      | false => simp [List.filter_cons, hok]
      | true => simp [List.filter_cons, hok]
    · rw [show aggLoop env st log (rid :: rest)
          = aggLoop env st' (log ++ List.replicate n rid) rest from by
        simp [aggLoop, hP]]
      rw [ih2, hn, List.flatMap_cons, List.append_assoc]

/-- The recording list returned by `_get_metadata` is exactly the
successful subsequence of the input collection. -/
theorem get_metadata_recording_list (env : DunyaEnv) (col : List String) :
    (_get_metadata env col).recording_list =
      col.filter (fun r => recordingOk env r) := by
  show (rawAccum env col).recording_list = _
  rw [rawAccum]
  simpa [emptyAcc] using (aggLoop_state env col emptyAcc []).1

/-- The query trace of `_get_metadata` is the concatenation, in input
order, of one block of identical queries per recording. -/
theorem get_metadata_queryLog (env : DunyaEnv) (col : List String) :
    queryLog env col = col.flatMap (fun r => List.replicate (queryCount env r) r) := by
  rw [queryLog]
  simpa using (aggLoop_state env col emptyAcc []).2

/-! ## Concrete environments for witnesses and counterexamples -/

/-- A detail record with every field present and empty: processing it
always succeeds and contributes nothing but the recording id. -/
def trivialDetail : RecordingDetail :=
  ⟨some [], some [], some [], some [], some []⟩

/-- An environment that answers every detail query with `trivialDetail`. -/
def envTrivial : DunyaEnv := fun _ => .ok trivialDetail

/-- An environment whose recordings have one well-formed lead-artist
entry but no `"concert"` key: the artist loop succeeds and appends, then
the concert access raises, so the recording fails after a partial
contribution. -/
def envPartial : DunyaEnv := fun _ =>
  .ok ⟨some [⟨some true, some ⟨"a", 0⟩, some ⟨"i", 1⟩⟩], none, none, none, none⟩

/-- An environment with two recordings whose lead artist has the same
mbid `"a"` but different attributes; exhibits last-write-wins. -/
def envDup : DunyaEnv := fun rid =>
  if rid = "r1" then
    .ok ⟨some [⟨some true, some ⟨"a", 1⟩, some ⟨"i", 1⟩⟩],
      some [], some [], some [], some []⟩
  else
    .ok ⟨some [⟨some true, some ⟨"a", 2⟩, some ⟨"i", 1⟩⟩],
      some [], some [], some [], some []⟩

/-! ## Claims about the aggregation -/

/-- **C2 counterexample**: a recording that fails mid-processing (its
detail has a well-formed artist entry but no `"concert"` key) leaves its
partial appends in the artist and instrument accumulators even though it
is excluded from the recording list — the accumulators are NOT left
exactly as they were before the recording was processed. -/
theorem claim_C2_counterexample :
    recordingOk envPartial "r" = false ∧
      (_get_metadata envPartial ["r"]).recording_list = [] ∧
      (_get_metadata envPartial ["r"]).artist_list = [⟨"a", 0⟩] ∧
      (_get_metadata envPartial ["r"]).instrument_list = [⟨"i", 1⟩] := by
  decide

/-- **C2 (amended)**: for every recording whose processing fails, the
recording's identifier is absent from the returned recording list, no
error is surfaced, and the aggregation continues with the next recording
without aborting; however, appends made to the accumulators before the
failing step are retained (partial contributions are kept, not rolled
back). -/
theorem claim_C2_amended (env : DunyaEnv) (col : List String) (rid : String)
    (h : recordingOk env rid = false) :
    rid ∉ (_get_metadata env col).recording_list ∧
      ∀ st log rest, aggLoop env st log (rid :: rest) =
        aggLoop env (processRecording env st rid).1
          (log ++ List.replicate (queryCount env rid) rid) rest := by
  constructor
  · rw [get_metadata_recording_list]
    intro hmem
    have hh := (List.mem_filter.mp hmem).2
    rw [h] at hh
    simp at hh
  · intro st log rest
    rcases hPx : processRecording env st rid with ⟨st2, n, flag⟩
    have hsnd := processRecording_snd env st rid
    rw [hPx] at hsnd
    have hn : n = queryCount env rid := by
      have := congrArg Prod.fst hsnd
      simpa using this
    simp [aggLoop, hPx, hn]

theorem claim_C2_amended_witness :
    "r" ∉ (_get_metadata envPartial ["r"]).recording_list :=
  (claim_C2_amended envPartial ["r"] "r" (by decide)).1

/-- **C3 counterexample**: a single recording whose detail record is
fully well-formed receives five detail queries, not exactly one. -/
theorem claim_C3_counterexample :
    queryLog envTrivial ["r"] = ["r", "r", "r", "r", "r"] ∧
      ¬ (queryLog envTrivial ["r"]).length = 1 := by
  decide

/-- Per-recording query-count characterization. -/
theorem queryCount_bounds (env : DunyaEnv) (rid : String) :
    1 ≤ queryCount env rid ∧ queryCount env rid ≤ 5 ∧
      (recordingOk env rid = true → queryCount env rid = 5) := by
  rw [queryCount, recordingOk]
  cases he : env rid with
  | error e => simp [processRecording, he]
  | ok d =>
    cases hart : d.artists with
    | none => simp [processRecording, he, hart]
    | some items =>
      rcases hP : processArtists items [] [] with ⟨al, il, flag⟩
      cases flag with
      | false => simp [processRecording, he, hart, hP, emptyAcc]
      | true =>
        cases hc : d.concert with
        | none => simp [processRecording, he, hart, hP, hc, emptyAcc]
        | some cs =>
          cases hw : d.work with
          | none => simp [processRecording, he, hart, hP, hc, hw, emptyAcc]
          | some ws =>
            cases hr : d.raaga with
            | none => simp [processRecording, he, hart, hP, hc, hw, hr, emptyAcc]
            | some rs =>
              cases ht : d.taala with
              | none => simp [processRecording, he, hart, hP, hc, hw, hr, ht, emptyAcc]
              | some ts => simp [processRecording, he, hart, hP, hc, hw, hr, ht, emptyAcc]

/-- **C3 (amended)**: recordings are processed sequentially in the
order given, and the aggregation issues between one and five detail
queries per recording — the source fetches the detail record afresh for
each of the five metadata fields — with exactly five queries for every
recording that processes successfully. -/
theorem claim_C3_amended (env : DunyaEnv) (col : List String) :
    queryLog env col =
        col.flatMap (fun r => List.replicate (queryCount env r) r) ∧
      (∀ r, recordingOk env r = true → queryCount env r = 5) ∧
      (∀ r, 1 ≤ queryCount env r ∧ queryCount env r ≤ 5) := by
  refine ⟨get_metadata_queryLog env col, ?_, ?_⟩
  · intro r hr
    exact (queryCount_bounds env r).2.2 hr
  · intro r
    exact ⟨(queryCount_bounds env r).1, (queryCount_bounds env r).2.1⟩

theorem claim_C3_amended_witness :
    queryLog envTrivial ["r1", "r2"] =
        ["r1", "r1", "r1", "r1", "r1", "r2", "r2", "r2", "r2", "r2"] ∧
      queryCount envTrivial "r1" = 5 := by
  have h := claim_C3_amended envTrivial ["r1", "r2"]
  refine ⟨?_, h.2.1 "r1" (by decide)⟩
  rw [h.1]
  decide

/-- **C4**: in every output list of the aggregation result, no two
entries share an identifier, and every surviving record is the
last-encountered occurrence of its identifier in the corresponding raw
accumulator (so when an identifier was accumulated more than once, the
survivor's attributes are those of the last occurrence in sequential
processing order). -/
theorem claim_C4_dedup_last_write_wins (env : DunyaEnv) (col : List String) :
    (((_get_metadata env col).artist_list.map DEntity.ident).Nodup ∧
      ∀ e ∈ (_get_metadata env col).artist_list,
        lastWith DEntity.ident e.ident (rawAccum env col).artist_list = some e) ∧
    (((_get_metadata env col).concert_list.map DEntity.ident).Nodup ∧
      ∀ e ∈ (_get_metadata env col).concert_list,
        lastWith DEntity.ident e.ident (rawAccum env col).concert_list = some e) ∧
    (((_get_metadata env col).work_list.map DEntity.ident).Nodup ∧
      ∀ e ∈ (_get_metadata env col).work_list,
        lastWith DEntity.ident e.ident (rawAccum env col).work_list = some e) ∧
    (((_get_metadata env col).raga_list.map DEntity.ident).Nodup ∧
      ∀ e ∈ (_get_metadata env col).raga_list,
        lastWith DEntity.ident e.ident (rawAccum env col).raga_list = some e) ∧
    (((_get_metadata env col).tala_list.map DEntity.ident).Nodup ∧
      ∀ e ∈ (_get_metadata env col).tala_list,
        lastWith DEntity.ident e.ident (rawAccum env col).tala_list = some e) ∧
    (((_get_metadata env col).instrument_list.map DEntity.ident).Nodup ∧
      ∀ e ∈ (_get_metadata env col).instrument_list,
        lastWith DEntity.ident e.ident (rawAccum env col).instrument_list = some e) := by
  refine ⟨⟨?_, ?_⟩, ⟨?_, ?_⟩, ⟨?_, ?_⟩, ⟨?_, ?_⟩, ⟨?_, ?_⟩, ?_, ?_⟩ <;>
    first
      | exact dedupBy_ids_nodup DEntity.ident _
      | exact fun e he => dedupBy_mem_lastWith DEntity.ident _ e he

theorem claim_C4_witness :
    lastWith DEntity.ident (DEntity.mk "a" 2).ident
      (rawAccum envDup ["r1", "r2"]).artist_list = some ⟨"a", 2⟩ :=
  (claim_C4_dedup_last_write_wins envDup ["r1", "r2"]).1.2 ⟨"a", 2⟩ (by decide)

/-- **C6**: with zero failures the returned recording-identifier list is
exactly the input collection (hence equal as a set), and every recording
that fails during processing is silently excluded from it. -/
theorem claim_C6_recording_list (env : DunyaEnv) (col : List String) :
    ((∀ r ∈ col, recordingOk env r = true) →
      (_get_metadata env col).recording_list = col) ∧
    ∀ r, recordingOk env r = false →
      r ∉ (_get_metadata env col).recording_list := by
  constructor
  · intro h
    rw [get_metadata_recording_list]
    exact List.filter_eq_self.mpr h
  · intro r h hmem
    rw [get_metadata_recording_list] at hmem
    have hh := (List.mem_filter.mp hmem).2
    rw [h] at hh
    simp at hh

theorem claim_C6_witness :
    (_get_metadata envTrivial ["r1", "r2"]).recording_list = ["r1", "r2"] ∧
      "rx" ∉ (_get_metadata envPartial ["rx"]).recording_list :=
  ⟨(claim_C6_recording_list envTrivial ["r1", "r2"]).1 (by decide),
    (claim_C6_recording_list envPartial ["rx"]).2 "rx" (by decide)⟩

/-! ## The CAE feature-extraction pipeline (`CAEWrapper`) -/

/-- The windowing step of `CAEWrapper.to_amp_phase` (lines 221–225 of
`compiam/melody/pattern/sancara_search/__init__.py`):
`for i in range(0, len(cqt) - self.length_ngram, 1)` slices
`cqt[i:i + length_ngram]`, flattens it (`reshape((-1,))`) and
standardizes it with the external `standardize` collaborator (modelled
as `std`).  Rows of the (transposed) time-frequency matrix are frames.
The Python `range` excludes its stop value, and is empty when the stop
value is non-positive — which natural subtraction mirrors. -/
def ngrams (length_ngram : Nat) (std : List Int → List Int)
    (cqt : List (List Int)) : List (List Int) :=
  (List.range (cqt.length - length_ngram)).map
    (fun i => std (((cqt.drop i).take length_ngram).flatten))

/-- `CAEWrapper.to_amp_phase`: stack the standardized windows
(`np.vstack`) and run the Complex model (external collaborator `model`),
which returns one amplitude row and one phase row per window. -/
def to_amp_phase {β : Type} (length_ngram : Nat) (std : List Int → List Int)
    (model : List (List Int) → β × β) (cqt : List (List Int)) : β × β :=
  model (ngrams length_ngram std cqt)

/-- The configuration attributes `CAEWrapper.__init__` unpacks onto the
object and that the extraction path reads (the window length is a frame
count). -/
structure CAEAttrs where
  n_bins : Int
  length_ngram : Nat
  sr : Int
  bins_per_oct : Int
  fmin : Int
  hop_length : Int
deriving DecidableEq, Repr

/-- Python truthiness of the optional `sr` argument:
`sr = sr if sr else self.sr` — both `None` and `0` fall back to the
configured rate. -/
def resolveSr (selfSr : Int) : Option Int → Int
  | none => selfSr
  | some s => if s = 0 then selfSr else s

/-- `CAEWrapper.get_cqt` (lines 186–204): compute the CQT via the
external `to_cqt_repr` collaborator (`tfm`, taking the audio path,
`n_bins`, `bins_per_oct`, `fmin`, `hop_length` and the sample rate; its
constant arguments `use_nr_samples=-1`, `standard=True`, `mult=1.` are
folded into it) and transpose so that rows are time frames. -/
def get_cqt (p : CAEAttrs)
    (tfm : String → Int → Int → Int → Int → Int → List (List Int))
    (audio_path : String) (sr : Option Int) : List (List Int) :=
  (tfm audio_path p.n_bins p.bins_per_oct p.fmin p.hop_length
    (resolveSr p.sr sr)).transpose

/-- `CAEWrapper.extract_features` (lines 166–184): resolve the `sr`
argument (line 178), then call `get_cqt` with `sr=None` (line 180) — so
the resolved value is never used — and run `to_amp_phase`. -/
def extract_features {β : Type} (p : CAEAttrs)
    (tfm : String → Int → Int → Int → Int → Int → List (List Int))
    (std : List Int → List Int) (model : List (List Int) → β × β)
    (audio_path : String) (sr : Option Int) : β × β :=
  let _sr := resolveSr p.sr sr
  to_amp_phase p.length_ngram std model (get_cqt p tfm audio_path none)

/-- **C1 counterexample**: a 2-frame matrix with window length 1 yields
one window, not `T - L + 1 = 2`: the loop `range(0, len(cqt) - L)` never
starts a window at offset `T - L`. -/
theorem claim_C1_counterexample :
    (ngrams 1 (fun v => v) ([[0], [1]] : List (List Int))).length = 1 ∧
      2 - 1 + 1 = 2 ∧
      ¬ (ngrams 1 (fun v => v) ([[0], [1]] : List (List Int))).length = 2 := by
  decide

/-- **C1 (amended)**: for a matrix of `T` frames and window length `L`,
the windowing step produces exactly `T - L` windows (natural
subtraction) — one at each offset `0 … T - L - 1` with stride 1, the
window at offset `i` being the standardized flattening of frames
`i … i + L - 1`; the final full-length window at offset `T - L` is never
produced, and zero windows are produced whenever `T ≤ L`. -/
theorem claim_C1_window_count (length_ngram : Nat) (std : List Int → List Int)
    (cqt : List (List Int)) :
    (ngrams length_ngram std cqt).length = cqt.length - length_ngram ∧
      (∀ i, i < cqt.length - length_ngram →
        (ngrams length_ngram std cqt)[i]? =
          some (std (((cqt.drop i).take length_ngram).flatten))) ∧
      (cqt.length ≤ length_ngram → ngrams length_ngram std cqt = []) := by
  refine ⟨by simp [ngrams], ?_, ?_⟩
  · intro i hi
    rw [ngrams, List.getElem?_map, List.getElem?_range hi]
    rfl
  · intro h
    rw [ngrams, Nat.sub_eq_zero_of_le h]
    rfl

theorem claim_C1_witness :
    (ngrams 2 (fun v => v) ([[0], [1], [2], [3]] : List (List Int)))[1]? =
        some [1, 2] ∧
      ngrams 5 (fun v => v) ([[0]] : List (List Int)) = [] := by
  refine ⟨?_,
    (claim_C1_window_count 5 (fun v => v) ([[0]] : List (List Int))).2.2 (by decide)⟩
  rw [(claim_C1_window_count 2 (fun v => v)
    ([[0], [1], [2], [3]] : List (List Int))).2.1 1 (by decide)]
  decide

/-- **C10**: the caller-supplied sample rate is accepted but never
forwarded: `extract_features` calls `get_cqt` with `sr=None`, so the
time-frequency transform always receives the configured `self.sr` and
the result is independent of the `sr` argument. -/
theorem claim_C10_sr_ignored {β : Type} (p : CAEAttrs)
    (tfm : String → Int → Int → Int → Int → Int → List (List Int))
    (std : List Int → List Int) (model : List (List Int) → β × β)
    (audio_path : String) (sr : Option Int) :
    extract_features p tfm std model audio_path sr =
        extract_features p tfm std model audio_path none ∧
      extract_features p tfm std model audio_path sr =
        to_amp_phase p.length_ngram std model
          ((tfm audio_path p.n_bins p.bins_per_oct p.fmin p.hop_length
            p.sr).transpose) :=
  ⟨rfl, rfl⟩

/-! ## Configuration validation (`CAEWrapper.validate_conf`) -/

/-- A Python value as stored in the parsed configuration dict.  The
float payload is irrelevant to validation and is abstracted away.
Note that `isinstance(v, int)` is also true for `bool` values (Python's
`bool` is a subclass of `int`). -/
inductive PyVal where
  | vInt : Int → PyVal
  | vFloat : PyVal
  | vStr : String → PyVal
  | vBool : Bool → PyVal
deriving DecidableEq, Repr

/-- `isinstance(v, int)` — true for Python ints and bools. -/
def isPyInt : PyVal → Bool
  | .vInt _ => true
  | .vBool _ => true
  | _ => false

/-- `isinstance(v, float)`. -/
def isPyFloat : PyVal → Bool
  | .vFloat => true
  | _ => false

/-- The Python dict of configuration parameters. -/
def Conf : Type := List (String × PyVal)

/-- `param in conf`. -/
def hasKey (conf : Conf) (k : String) : Bool := (lookupD k conf).isSome

/-- The required-parameter list of `CAEWrapper.validate_conf`, in source
order (lines 118–120). -/
def requiredParams : List String :=
  ["n_bins", "length_ngram", "n_bases", "dropout",
   "sr", "bins_per_oct", "fmin", "hop_length"]

/-- `CAEWrapper.validate_conf` (lines 107–146): raise on the first
missing required parameter, naming it, then check the value types in
source order.  Values are read as `conf[param]`; the `.getD` fallback is
never reached because the type checks only run when every required key
is present. -/
def validate_conf (conf : Conf) : Except String Unit :=
  match requiredParams.find? (fun param => ! hasKey conf param) with
  | some param => .error (param ++ " not present in conf at <self.conf_path>")
  | none =>
    if ! isPyInt ((lookupD "n_bins" conf).getD (.vStr "")) then
      .error "n_bins in conf at <conf_path> should be an integer"
    else if ! isPyInt ((lookupD "length_ngram" conf).getD (.vStr "")) then
      .error "length_ngram in conf at <conf_path> should be an integer"
    else if ! isPyInt ((lookupD "n_bases" conf).getD (.vStr "")) then
      .error "n_bases in conf at <conf_path> should be an integer"
    else if ! isPyFloat ((lookupD "dropout" conf).getD (.vStr "")) then
      .error "dropout in conf at <conf_path> should be a float"
    else if ! isPyInt ((lookupD "sr" conf).getD (.vStr "")) then
      .error "sr in conf at <conf_path> should be an integer"
    else if ! isPyInt ((lookupD "bins_per_oct" conf).getD (.vStr "")) then
      .error "bins_per_oct in conf at <conf_path> should be an integer"
    else if ! (isPyFloat ((lookupD "fmin" conf).getD (.vStr ""))
        || isPyInt ((lookupD "fmin" conf).getD (.vStr ""))) then
      .error "fmin in conf at <conf_path> should be an float/integer"
    else if ! isPyInt ((lookupD "hop_length" conf).getD (.vStr "")) then
      .error "hop_length in conf at <conf_path> should be an integer"
    else .ok ()

/-- The construction sequence of `CAEWrapper.__init__` after the config
file is parsed (lines 76–83): validate, then unpack the parameters onto
the object.  A validation error aborts construction before any
attribute is set — there is no partially constructed object. -/
def initWrapper (conf : Conf) : Except String Conf :=
  match validate_conf conf with
  | .error e => .error e
  | .ok _ => .ok conf

/-- **C7**: construction fails with a configuration error naming the
offending key whenever any of the eight required keys is absent, and
fails whenever `n_bins` is supplied as a non-integer value (e.g. a
string or a float); the failure is immediate — `initWrapper` returns the
error and no object is built. -/
theorem claim_C7_validate_conf (conf : Conf) :
    (∀ k ∈ requiredParams, hasKey conf k = false →
      ∃ m ∈ requiredParams, hasKey conf m = false ∧
        validate_conf conf =
          .error (m ++ " not present in conf at <self.conf_path>") ∧
        initWrapper conf =
          .error (m ++ " not present in conf at <self.conf_path>")) ∧
    (∀ v, lookupD "n_bins" conf = some v → isPyInt v = false →
      ∃ e, validate_conf conf = .error e ∧ initWrapper conf = .error e) := by
  constructor
  · intro k hk hmiss
    have hfind : (requiredParams.find? (fun param => ! hasKey conf param)).isSome := by
      rw [List.find?_isSome]
      exact ⟨k, hk, by rw [hmiss]; rfl⟩
    obtain ⟨m, hm⟩ := Option.isSome_iff_exists.mp hfind
    have hval : validate_conf conf =
        .error (m ++ " not present in conf at <self.conf_path>") := by
      rw [validate_conf, hm]
    have hmem := List.mem_of_find?_eq_some hm
    have hmmiss : hasKey conf m = false := by
      have := List.find?_some hm
      simpa using this
    exact ⟨m, hmem, hmmiss, hval, by rw [initWrapper, hval]⟩
  · intro v hv hnot
    cases hfind : requiredParams.find? (fun param => ! hasKey conf param) with
    | some m =>
      have hval : validate_conf conf =
          .error (m ++ " not present in conf at <self.conf_path>") := by
        rw [validate_conf, hfind]
      exact ⟨m ++ " not present in conf at <self.conf_path>", hval,
        by rw [initWrapper, hval]⟩
    | none =>
      have hval : validate_conf conf =
          .error "n_bins in conf at <conf_path> should be an integer" := by
        rw [validate_conf, hfind]
        simp [hv, hnot]
      exact ⟨"n_bins in conf at <conf_path> should be an integer", hval,
        by rw [initWrapper, hval]⟩

/-- A configuration with `"sr"` missing. -/
def confMissingSr : Conf :=
  [("n_bins", .vInt 84), ("length_ngram", .vInt 32), ("n_bases", .vInt 256),
   ("dropout", .vFloat), ("bins_per_oct", .vInt 12), ("fmin", .vInt 30),
   ("hop_length", .vInt 512)]

/-- A configuration whose `"n_bins"` value is a string. -/
def confBadNBins : Conf :=
  [("n_bins", .vStr "84"), ("length_ngram", .vInt 32), ("n_bases", .vInt 256),
   ("dropout", .vFloat), ("sr", .vInt 44100), ("bins_per_oct", .vInt 12),
   ("fmin", .vInt 30), ("hop_length", .vInt 512)]

theorem claim_C7_witness :
    (∃ m ∈ requiredParams, hasKey confMissingSr m = false ∧
        validate_conf confMissingSr =
          .error (m ++ " not present in conf at <self.conf_path>") ∧
        initWrapper confMissingSr =
          .error (m ++ " not present in conf at <self.conf_path>")) ∧
      ∃ e, validate_conf confBadNBins = .error e ∧
        initWrapper confBadNBins = .error e :=
  ⟨(claim_C7_validate_conf confMissingSr).1 "sr" (by decide) (by decide),
    (claim_C7_validate_conf confBadNBins).2 (.vStr "84") (by decide) (by decide)⟩

/-! ## Annotation writer dispatch (`Corpora.save_annotation`) -/

/-- Whether `needle` occurs at the head of `hay`. -/
def charLeads : List Char → List Char → Bool
  | [], _ => true
  | _ :: _, [] => false
  | a :: as, b :: bs => a == b && charLeads as bs

/-- Whether `needle` occurs anywhere in `hay`. -/
def charSub (needle : List Char) : List Char → Bool
  | [] => needle.isEmpty
  | b :: bs => charLeads needle (b :: bs) || charSub needle bs

/-- Python's substring containment `needle in hay`. -/
def pyIn (needle hay : String) : Bool := charSub needle.toList hay.toList

/-- The writer invoked by `Corpora.save_annotation` for a subtype. -/
inductive WriteAction where
  | scalar_txt
  | json_out
  | csv_out
  | unsupported
deriving DecidableEq, Repr

/-- The writer dispatch of `Corpora.save_annotation` (lines 301–312):
substring checks in source order; `unsupported` models the final
`raise ValueError("No writing method available for data type: ...")`. -/
def save_annotation_writer (subtype : String) : WriteAction :=
  if pyIn "tonic" subtype || pyIn "aksharaPeriod" subtype then .scalar_txt
  else if pyIn "section" subtype then .json_out
  else if pyIn "APcurve" subtype then .csv_out
  else if pyIn "pitch" subtype || pyIn "aksharaTicks" subtype then .csv_out
  else .unsupported

/-- **C8 counterexample**: the subtype `"tonicpitch"` contains the
substring `"pitch"` yet invokes the scalar-text writer, because the
`"tonic"` check has precedence — so "a subtype containing the substring
pitch invokes the CSV writer" fails as a universal statement. -/
theorem claim_C8_counterexample :
    pyIn "pitch" "tonicpitch" = true ∧
      save_annotation_writer "tonicpitch" = WriteAction.scalar_txt ∧
      WriteAction.scalar_txt ≠ WriteAction.csv_out := by
  decide

/-- **C8 (amended)**: dispatch follows the source's precedence order —
`"tonic"`/`"aksharaPeriod"` → scalar text, then `"section"` → JSON, then
`"APcurve"` → CSV, then `"pitch"`/`"aksharaTicks"` → CSV, otherwise an
unsupported-type error.  In particular a subtype containing `"tonic"`
always invokes the scalar-text writer, a subtype containing `"pitch"`
but none of the earlier-matched substrings invokes the CSV writer, and a
subtype matching none of the six recognized substrings fails. -/
theorem claim_C8_dispatch (subtype : String) :
    (pyIn "tonic" subtype = true →
      save_annotation_writer subtype = WriteAction.scalar_txt) ∧
    (pyIn "pitch" subtype = true → pyIn "tonic" subtype = false →
      pyIn "aksharaPeriod" subtype = false → pyIn "section" subtype = false →
      save_annotation_writer subtype = WriteAction.csv_out) ∧
    (pyIn "tonic" subtype = false → pyIn "aksharaPeriod" subtype = false →
      pyIn "section" subtype = false → pyIn "APcurve" subtype = false →
      pyIn "pitch" subtype = false → pyIn "aksharaTicks" subtype = false →
      save_annotation_writer subtype = WriteAction.unsupported) := by
  refine ⟨?_, ?_, ?_⟩
  · intro h1
    simp [save_annotation_writer, h1]
  · intro h1 h2 h3 h4
    cases h5 : pyIn "APcurve" subtype with
    | true => simp [save_annotation_writer, h1, h2, h3, h4, h5]
    | false => simp [save_annotation_writer, h1, h2, h3, h4, h5]
  · intro h1 h2 h3 h4 h5 h6
    simp [save_annotation_writer, h1, h2, h3, h4, h5, h6]

theorem claim_C8_witness :
    save_annotation_writer "tonic" = WriteAction.scalar_txt ∧
      save_annotation_writer "pitch" = WriteAction.csv_out ∧
      save_annotation_writer "foobar" = WriteAction.unsupported :=
  ⟨(claim_C8_dispatch "tonic").1 (by decide),
    (claim_C8_dispatch "pitch").2.1 (by decide) (by decide) (by decide) (by decide),
    (claim_C8_dispatch "foobar").2.2 (by decide) (by decide) (by decide) (by decide)
      (by decide) (by decide)⟩

/-! ## Download paths (`Corpora.download_mp3`, `Corpora.download_concert`) -/

/-- An abstract filesystem: the existing directories and files. -/
structure FS where
  dirs : List String
  files : List String
deriving DecidableEq, Repr

/-- `os.path.exists`. -/
def pathExists (fs : FS) (p : String) : Bool :=
  fs.dirs.contains p || fs.files.contains p

/-- `os.path.isdir`. -/
def isdir (fs : FS) (p : String) : Bool := fs.dirs.contains p

/-- Errors raised by the download paths: the
`Exception("Output directory %s doesn't exist; can't save")` check, and
`OSError` with an errno from `os.makedirs`. -/
inductive DownloadErr where
  | missing_dir : String → DownloadErr
  | os_error : Int → DownloadErr
deriving DecidableEq, Repr

/-- `errno.EEXIST`. -/
def EEXIST : Int := 17

/-- `os.makedirs`: raises `FileExistsError` (errno `EEXIST`) when the
target path already exists, otherwise creates the directory. -/
def makedirs (fs : FS) (p : String) : Except DownloadErr FS :=
  if pathExists fs p then .error (.os_error EEXIST)
  else .ok { fs with dirs := p :: fs.dirs }

/-- `Corpora.download_mp3` (lines 314–338): fail when the output
directory does not exist; otherwise write the mp3 into it and return the
file name.  The name computed from the recording metadata is abstracted
as the `name` argument; no directory is ever created. -/
def download_mp3 (fs : FS) (output_dir name : String) :
    Except DownloadErr (FS × String) :=
  if ! pathExists fs output_dir then
    .error (.missing_dir output_dir)
  else
    .ok ({ fs with files := (output_dir ++ "/" ++ name) :: fs.files }, name)

/-- `concertdir.replace("/", "-")`: replace every slash character. -/
def replaceSlash : List Char → List Char
  | [] => []
  | c :: cs => (if c = '/' then '-' else c) :: replaceSlash cs

/-- The per-concert directory: `"%s - %s" % (artists, concertname)` with
`"/"` replaced by `"-"`, joined under the output directory. -/
def concertDir (output_dir artists concertname : String) : String :=
  output_dir ++ "/" ++ String.mk (replaceSlash (artists ++ " - " ++ concertname).toList)

/-- The mp3 paths written inside the per-concert directory. -/
def concertFiles (output_dir artists concertname : String)
    (recNames : List String) : List String :=
  recNames.map (fun n => concertDir output_dir artists concertname ++ "/" ++ n)

/-- `Corpora.download_concert` (lines 340–373): fail when the output
directory does not exist; create the per-concert subdirectory with
`os.makedirs`, tolerating `EEXIST` when the path is an existing
directory; then write one mp3 per recording into it (the per-recording
file names are abstracted as `recNames`). -/
def download_concert (fs : FS) (output_dir artists concertname : String)
    (recNames : List String) : Except DownloadErr FS :=
  if ! pathExists fs output_dir then
    .error (.missing_dir output_dir)
  else
    match makedirs fs (concertDir output_dir artists concertname) with
    | .ok fs2 =>
      .ok { fs2 with
        files := concertFiles output_dir artists concertname recNames ++ fs2.files }
    | .error e =>
      match e with
      | .os_error num =>
        if num = EEXIST && isdir fs (concertDir output_dir artists concertname) then
          .ok { fs with
            files := concertFiles output_dir artists concertname recNames ++ fs.files }
        else .error (.os_error num)
      | .missing_dir s => .error (.missing_dir s)

/-- **C9**: a download call whose target output directory does not exist
fails with a fatal error and no directory is auto-created (the
single-file path never creates a directory at all); for the multi-file
concert download with an existing output directory, the per-concert
subdirectory is auto-created when absent, and a pre-existing
subdirectory of that name is tolerated rather than treated as an
error. -/
theorem claim_C9_download_dirs (fs : FS)
    (output_dir name artists concertname : String) (recNames : List String) :
    (pathExists fs output_dir = false →
      download_mp3 fs output_dir name = .error (.missing_dir output_dir) ∧
      download_concert fs output_dir artists concertname recNames =
        .error (.missing_dir output_dir)) ∧
    (∀ fs2 name2, download_mp3 fs output_dir name = .ok (fs2, name2) →
      fs2.dirs = fs.dirs) ∧
    (pathExists fs output_dir = true →
      (pathExists fs (concertDir output_dir artists concertname) = false →
        ∃ fs2,
          download_concert fs output_dir artists concertname recNames = .ok fs2 ∧
          fs2.dirs = concertDir output_dir artists concertname :: fs.dirs) ∧
      (isdir fs (concertDir output_dir artists concertname) = true →
        ∃ fs2,
          download_concert fs output_dir artists concertname recNames = .ok fs2 ∧
          fs2.dirs = fs.dirs)) := by
  refine ⟨?_, ?_, ?_⟩
  · intro h
    exact ⟨by simp [download_mp3, h], by simp [download_concert, h]⟩
  · intro fs2 name2 h
    cases hp : pathExists fs output_dir with
    | false => simp [download_mp3, hp] at h
    | true =>
      simp [download_mp3, hp] at h
      rw [← h.1]
  · intro hout
    constructor
    · intro habs
      refine ⟨{ fs with
          dirs := concertDir output_dir artists concertname :: fs.dirs,
          files := concertFiles output_dir artists concertname recNames ++ fs.files },
        ?_, rfl⟩
      simp [download_concert, hout, makedirs, habs]
    · intro hdir
      have hmem : concertDir output_dir artists concertname ∈ fs.dirs := by
        have hh := hdir
        rw [isdir] at hh
        simpa using hh
      have hex : pathExists fs (concertDir output_dir artists concertname) = true := by
        rw [pathExists]
        simp [hmem]
      refine ⟨{ fs with
          files := concertFiles output_dir artists concertname recNames ++ fs.files },
        ?_, rfl⟩
      simp [download_concert, hout, makedirs, hex, hdir, EEXIST]

theorem claim_C9_witness :
    download_mp3 ⟨[], []⟩ "out" "x.mp3" =
        .error (.missing_dir "out") ∧
      (∃ fs2, download_concert ⟨["out"], []⟩ "out" "A" "C" ["t.mp3"] = .ok fs2 ∧
        fs2.dirs = concertDir "out" "A" "C" :: ["out"]) ∧
      ∃ fs2,
        download_concert ⟨["out", "out/A - C"], []⟩ "out" "A" "C" ["t.mp3"] =
          .ok fs2 ∧
        fs2.dirs = ["out", "out/A - C"] :=
  ⟨((claim_C9_download_dirs ⟨[], []⟩ "out" "x.mp3" "A" "C" ["t.mp3"]).1
      (by decide)).1,
    ((claim_C9_download_dirs ⟨["out"], []⟩ "out" "x.mp3" "A" "C" ["t.mp3"]).2.2
      (by decide)).1 (by decide),
    ((claim_C9_download_dirs ⟨["out", "out/A - C"], []⟩ "out" "x.mp3" "A" "C"
      ["t.mp3"]).2.2 (by decide)).2 (by decide)⟩

end CompIAM
